import Mathlib

/-!
Verification of the curlreq command-to-request conversion engine.

Go strings are modelled as lists of characters (`Str`); Go byte slices as
lists of natural numbers below 256.  A Go call that can either return an
error or crash at runtime (slice bounds, index out of range, nil pointer
dereference) is modelled in the `Res` monad, whose error type distinguishes
an error value returned to the caller from an abnormal termination.
-/

deriving instance DecidableEq for Except

namespace Curlreq

/-- A Go string, modelled by its list of characters. -/
abbrev Str := List Char

/-- Characters of a Lean string literal, used to write concrete tokens. -/
def chars (s : String) : Str := s.data

/-- Outcome of a Go call that does not complete normally: `goError` is an
error value returned to the caller, `goPanic` is a runtime panic (abnormal
termination, no value and no error returned). -/
inductive PErr where
  | goError (msg : Str)
  | goPanic (msg : Str)
deriving DecidableEq

/-- Result of a fallible (or crashing) Go computation. -/
abbrev Res (α : Type) := Except PErr α

/-- Prefix test on character lists (an empty pattern is a prefix of
everything). -/
def isPrefixChars : Str → Str → Bool
  | [], _ => true
  | _ :: _, [] => false
  | c :: p, d :: s => c == d && isPrefixChars p s

/-- `strings.HasPrefix`. -/
def strStartsWith (s p : Str) : Bool := isPrefixChars p s

/-- `strings.TrimSpace` (over the whitespace characters exercised here). -/
def strTrim (s : Str) : Str :=
  ((s.dropWhile Char.isWhitespace).reverse.dropWhile Char.isWhitespace).reverse

/-- Concatenation of the images of a list, used for byte-level encoders. -/
def concatMap (f : α → List β) : List α → List β
  | [] => []
  | a :: t => f a ++ concatMap f t

/-- UTF-8 encoding of one code point (`utf8.EncodeRune`). -/
def utf8EncodeChar (c : Char) : List Nat :=
  let n := c.toNat
  if n < 128 then [n]
  else if n < 2048 then [192 + n / 64, 128 + n % 64]
  else if n < 65536 then [224 + n / 4096, 128 + n / 64 % 64, 128 + n % 64]
  else [240 + n / 262144, 128 + n / 4096 % 64, 128 + n / 64 % 64, 128 + n % 64]

/-- The bytes of a Go string (`[]byte(s)`). -/
def strBytes (s : Str) : List Nat := concatMap utf8EncodeChar s

/-- The standard base64 alphabet (`encoding/base64.StdEncoding`), as the
ASCII code of the character encoding a sextet. -/
def b64chr (n : Nat) : Nat :=
  if n < 26 then 65 + n
  else if n < 52 then 97 + (n - 26)
  else if n < 62 then 48 + (n - 52)
  else if n = 62 then 43
  else 47

/-- Inverse of the base64 alphabet on ASCII codes of alphabet characters. -/
def b64dec (c : Nat) : Nat :=
  if 65 ≤ c ∧ c ≤ 90 then c - 65
  else if 97 ≤ c ∧ c ≤ 122 then 26 + (c - 97)
  else if 48 ≤ c ∧ c ≤ 57 then 52 + (c - 48)
  else if c = 43 then 62
  else 63

/-- `base64.StdEncoding.EncodeToString`: bytes in, ASCII codes of the
base64 text (with `=` padding, ASCII 61) out. -/
def b64encode : List Nat → List Nat
  | [] => []
  | [b1] => [b64chr (b1 / 4), b64chr (b1 % 4 * 16), 61, 61]
  | [b1, b2] => [b64chr (b1 / 4), b64chr (b1 % 4 * 16 + b2 / 16), b64chr (b2 % 16 * 4), 61]
  | b1 :: b2 :: b3 :: rest =>
    b64chr (b1 / 4) :: b64chr (b1 % 4 * 16 + b2 / 16) ::
    b64chr (b2 % 16 * 4 + b3 / 64) :: b64chr (b3 % 64) :: b64encode rest

/-- Standard base64 decoding of the ASCII codes produced by `b64encode`. -/
def b64decode : List Nat → List Nat
  | c1 :: c2 :: c3 :: c4 :: rest =>
    if c3 = 61 then [b64dec c1 * 4 + b64dec c2 / 16]
    else if c4 = 61 then [b64dec c1 * 4 + b64dec c2 / 16, b64dec c2 % 16 * 16 + b64dec c3 / 4]
    else (b64dec c1 * 4 + b64dec c2 / 16) :: (b64dec c2 % 16 * 16 + b64dec c3 / 4) ::
         ((b64dec c3 % 4 * 64 + b64dec c4) :: b64decode rest)
  | _ => []

/-- Base64 of a Go string's bytes, as a string (`Authorization` values). -/
def b64encodeStr (s : Str) : Str := (b64encode (strBytes s)).map Char.ofNat

/-- A header token character (`net/textproto` token table): letters, digits
and the RFC 7230 token specials. -/
def isTokenChar (c : Char) : Bool :=
  c.isAlphanum || [33, 35, 36, 37, 38, 39, 42, 43, 45, 46, 94, 95, 96, 124, 126].contains c.toNat

/-- Case transformation of `textproto.CanonicalMIMEHeaderKey`: uppercase
after a hyphen or at the start, lowercase elsewhere. -/
def canonLoop : Bool → Str → Str
  | _, [] => []
  | upper, c :: rest =>
    let c2 := if upper then c.toUpper else c.toLower
    c2 :: canonLoop (c2 = '-') rest

/-- `textproto.CanonicalMIMEHeaderKey`: keys containing a non-token byte
are returned unchanged, otherwise the canonical capitalisation is used. -/
def canonicalMIMEHeaderKey (s : Str) : Str :=
  if s.all isTokenChar then canonLoop true s else s

/-- `http.Header`: a multimap from (canonicalised) header name to the
ordered list of its values. -/
abbrev Header := List (Str × List Str)

/-- Append a value under an already-canonical key. -/
def headerUpsert : Header → Str → Str → Header
  | [], ck, v => [(ck, [v])]
  | (k, vs) :: t, ck, v =>
    if k = ck then (k, vs ++ [v]) :: t else (k, vs) :: headerUpsert t ck v

/-- `http.Header.Add`: canonicalise the key, then append the value. -/
def headerAdd (h : Header) (k v : Str) : Header :=
  headerUpsert h (canonicalMIMEHeaderKey k) v

/-- Values stored under an already-canonical key. -/
def headerFind : Header → Str → Option (List Str)
  | [], _ => none
  | (k, vs) :: t, ck => if k = ck then some vs else headerFind t ck

/-- `http.Header.Get`: first value under the canonicalised key, or the
empty string. -/
def headerGet (h : Header) (k : Str) : Str :=
  match headerFind h (canonicalMIMEHeaderKey k) with
  | some (v :: _) => v
  | _ => []

/-- `isURL` from the source: a token is treated as the URL when it carries
an `http://` or `https://` scheme prefix. -/
def isURL (u : Str) : Bool :=
  strStartsWith u (chars ("https://")) || strStartsWith u (chars ("http://"))

/-- Models `net/url.Parse` to the extent the claims exercise it: Go's
parser rejects URLs containing ASCII control characters and accepts the
scheme-prefixed tokens appearing in the claims; on those tokens
`url.Parse` followed by `URL.String` is the identity, so the parsed URL
is modelled by the raw token. -/
def urlParse (s : Str) : Option Str :=
  if s.all (fun c => decide (32 ≤ c.toNat) && decide (c.toNat ≠ 127)) then some s else none

/-- `parseField`: split a header token at the first colon, trimming both
sides.  When the token has no colon, `strings.Index` returns `-1` and the
source slices `a[0:-1]`, a runtime bounds panic — modelled as `none`. -/
def parseField (a : Str) : Option (Str × Str) :=
  match a.findIdx? (fun c => c = ':') with
  | none => none
  | some i => some (strTrim (a.take i), strTrim (a.drop (i + 1)))

/-- `rewrite`: every token beginning with `-X` is split into the bare flag
and the glued value (`a[0:2]` and `a[2:]`); no other token is rewritten. -/
def rewrite : List Str → List Str
  | [] => []
  | a :: t =>
    (if strStartsWith a (chars ("-X")) then [a.take 2, a.drop 2] else [a]) ++ rewrite t

/-- Models `github.com/mattn/go-shellwords.Parse` on command strings
without backslash escapes, backquotes or substitution — the only forms the
claims exercise: runs of spaces and tabs split words, single or double
quotes group characters, an unterminated quote is an error, and the empty
string yields no tokens. -/
def swLoop : List Char → Option Char → Str → Bool → List Str → Res (List Str)
  | [], none, buf, started, acc => .ok (acc ++ if started then [buf] else [])
  | [], some _, _, _, _ => .error (.goError (chars ("invalid command line string")))
  | c :: rest, none, buf, started, acc =>
    if c = Char.ofNat 32 ∨ c = Char.ofNat 9 then
      if started then swLoop rest none [] false (acc ++ [buf]) else swLoop rest none [] false acc
    else if c = Char.ofNat 39 ∨ c = Char.ofNat 34 then swLoop rest (some c) buf true acc
    else swLoop rest none (buf ++ [c]) true acc
  | c :: rest, some q, buf, started, acc =>
    if c = q then swLoop rest none buf started acc
    else swLoop rest (some q) (buf ++ [c]) started acc

/-- `shellwords.Parse`. -/
def shellwordsParse (s : Str) : Res (List Str) := swLoop s none [] false []

/-- `cmdToArgs`: a single-element command is tokenised with shellwords;
the first token must be the literal `curl` and at least one further token
must follow; the remaining tokens are glued-flag rewritten.  On an empty
token list the source evaluates `cmd[0]`, an index-out-of-range panic. -/
def cmdToArgs (cmd : List Str) : Res (List Str) := do
  let cmd ← match cmd with
    | [s] => shellwordsParse s
    | _ => .ok cmd
  match cmd with
  | [] => .error (.goPanic (chars ("index out of range [0] with length 0")))
  | c :: rest =>
    if c ≠ chars ("curl") then .error (.goError (chars ("invalid curl command")))
    else if rest = [] then .error (.goError (chars ("invalid curl command")))
    else .ok (rewrite rest)

/-- The file-system collaborator of the data expander: contents of the
readable files, by path. -/
abbrev FS := Str → Option Str

/-- A file system with no readable files. -/
def emptyFs : FS := fun _ => none

/-- `readDataFile`: a value that does not start with `@`, or is exactly
`@`, is left alone (empty result); otherwise the named file is read, a
missing or unreadable file being a fatal error naming the path. -/
def readDataFile (fs : FS) (value : Str) : Res Str :=
  if ¬ strStartsWith value (chars ("@")) ∨ value.length ≤ 1 then .ok []
  else match fs (value.drop 1) with
    | some content => .ok content
    | none => .error (.goError (chars ("failed to read ") ++ value.drop 1))

/-- `parseCurlDataArg`: recognise a data-family token, yielding the bare
option, the glued value, and whether the value was glued (`inline`). -/
def parseCurlDataArg (arg : Str) : Option (Str × Str × Bool) :=
  if arg = chars ("--data-binary") then some (arg, [], false)
  else if strStartsWith arg (chars ("--data-binary=")) then
    some (chars ("--data-binary"), arg.drop 14, true)
  else if arg = chars ("--data-ascii") then some (arg, [], false)
  else if strStartsWith arg (chars ("--data-ascii=")) then
    some (chars ("--data-ascii"), arg.drop 13, true)
  else if arg = chars ("--data") then some (arg, [], false)
  else if strStartsWith arg (chars ("--data=")) then
    some (chars ("--data"), arg.drop 7, true)
  else if arg = chars ("-d") then some (arg, [], false)
  else if strStartsWith arg (chars ("-d")) then
    some (chars ("-d"), arg.drop 2, true)
  else none

/-- `expandCurlDataFiles`.  The source is an index loop over a growing
slice that reads and writes only positions at or past the scan index and
advances past every token it settles, so it is equivalently expressed as
this recursion on the unscanned suffix: an unrecognised token is kept; a
glued data token whose value names a readable file is split into the bare
flag and the file contents; a separate data flag at the very end stops the
scan (`break`); otherwise the following value token is replaced by the
file contents when it names a readable file, and both tokens are passed. -/
def expandCurlDataFiles (fs : FS) : List Str → Res (List Str)
  | [] => .ok []
  | a :: rest =>
    match parseCurlDataArg a with
    | none => (expandCurlDataFiles fs rest).map (a :: ·)
    | some (opt, value, inline) =>
      if inline then
        match readDataFile fs value with
        | .error e => .error e
        | .ok content =>
          if content = [] then (expandCurlDataFiles fs rest).map (a :: ·)
          else (expandCurlDataFiles fs rest).map (fun r => opt :: content :: r)
      else
        match rest with
        | [] => .ok [a]
        | b :: rest2 =>
          match readDataFile fs b with
          | .error e => .error e
          | .ok content =>
            if content = [] then (expandCurlDataFiles fs rest2).map (fun r => a :: b :: r)
            else (expandCurlDataFiles fs rest2).map (fun r => a :: content :: r)

/-- The structured request model built by `Parse`. -/
structure Parsed where
  url : Option Str
  method : Str
  header : Header
  body : Str
deriving DecidableEq

/-- `newParsed`: method `GET`, empty header, no URL, empty body. -/
def newParsed : Parsed := { url := none, method := chars ("GET"), header := [], body := [] }

/-- The inner switch of the token loop: consume a non-empty token as the
value of the pending flag state. -/
def consumeValue (p : Parsed) (state a : Str) : Res (Parsed × Str) :=
  if state = chars ("header") then
    match parseField a with
    | none => .error (.goPanic (chars ("slice bounds out of range [:-1]")))
    | some (k, v) => .ok ({ p with header := headerAdd p.header k v }, [])
  else if state = chars ("user-agent") then
    .ok ({ p with header := headerAdd p.header (chars ("User-Agent")) a }, [])
  else if state = chars ("data") then
    .ok ({ p with
           method := if p.method = chars ("GET") ∨ p.method = chars ("HEAD")
                     then chars ("POST") else p.method,
           body := if p.body = [] then a else p.body ++ chars ("&") ++ a }, [])
  else if state = chars ("user") then
    .ok ({ p with header := headerAdd p.header (chars ("Authorization"))
                    (chars ("Basic ") ++ b64encodeStr a) }, [])
  else if state = chars ("method") then
    .ok ({ p with method := a }, [])
  else if state = chars ("cookie") then
    .ok ({ p with header := headerAdd p.header (chars ("Cookie")) a }, [])
  else .ok (p, state)

/-- One iteration of the token loop of `Parse`: the switch cases in source
order — URL tokens first (overwriting the field), then the recognised
flags, then `--compressed`, then consumption of a non-empty token by the
pending state; an empty token falls through every case. -/
def stepArg (p : Parsed) (state a : Str) : Res (Parsed × Str) :=
  if isURL a then
    match urlParse a with
    | none => .error (.goError (chars ("net/url: parse error")))
    | some u => .ok ({ p with url := some u }, state)
  else if a = chars ("-A") ∨ a = chars ("--user-agent") then .ok (p, chars ("user-agent"))
  else if a = chars ("-H") ∨ a = chars ("--header") then .ok (p, chars ("header"))
  else if a = chars ("-d") ∨ a = chars ("--data") ∨ a = chars ("--data-ascii")
          ∨ a = chars ("--data-raw") then .ok (p, chars ("data"))
  else if a = chars ("-u") ∨ a = chars ("--user") then .ok (p, chars ("user"))
  else if a = chars ("-I") ∨ a = chars ("--head") then
    .ok ({ p with method := chars ("HEAD") }, state)
  else if a = chars ("-X") ∨ a = chars ("--request") then .ok (p, chars ("method"))
  else if a = chars ("-b") ∨ a = chars ("--cookie") then .ok (p, chars ("cookie"))
  else if a = chars ("--compressed") then
    .ok (if headerGet p.header (chars ("Accept-Encoding")) = []
         then { p with header := headerAdd p.header (chars ("Accept-Encoding"))
                         (chars ("deflate, gzip")) }
         else p, state)
  else if a ≠ [] then consumeValue p state a
  else .ok (p, state)

/-- The token loop, threading the model and the pending state. -/
def runLoop (p : Parsed) (state : Str) : List Str → Res (Parsed × Str)
  | [] => .ok (p, state)
  | a :: rest => do
    let (p2, st2) ← stepArg p state a
    runLoop p2 st2 rest

/-- The post-loop rule of `Parse`, as written in the source: when the body
is non-empty AND a `Content-Type` value is already present, an additional
`Content-Type: application/x-www-form-urlencoded` value is appended. -/
def postLoop (p : Parsed) : Parsed :=
  if p.body ≠ [] ∧ headerGet p.header (chars ("Content-Type")) ≠ [] then
    { p with header := headerAdd p.header (chars ("Content-Type"))
               (chars ("application/x-www-form-urlencoded")) }
  else p

/-- `Parse` on a pre-split command (Go's variadic form): tokenise and
rewrite, expand data-file references, run the token loop, apply the
post-loop rule. -/
def Parse (fs : FS) (cmd : List Str) : Res Parsed := do
  let args ← cmdToArgs cmd
  let args ← expandCurlDataFiles fs args
  let (p, _) ← runLoop newParsed [] args
  .ok (postLoop p)

/-- `Parse` on a single command string. -/
def ParseStr (fs : FS) (s : Str) : Res Parsed := Parse fs [s]

/-- The transport request produced by `Parsed.Request`. -/
structure RequestOut where
  method : Str
  url : Str
  header : Header
  body : Str
deriving DecidableEq

/-- A valid HTTP method token, as checked by `http.NewRequest`. -/
def validMethod (m : Str) : Bool := m ≠ [] && m.all isTokenChar

/-- `Parsed.Request`: a model with no URL yields an error; otherwise the
method, URL string, headers and body (or explicit no-body for an empty
body, which this byte-level model does not distinguish) are copied into
the request, `http.NewRequest` rejecting invalid methods. -/
def request (p : Parsed) : Res RequestOut :=
  match p.url with
  | none => .error (.goError (chars ("curlreq: invalid URL: <nil>")))
  | some u =>
    if validMethod p.method then .ok { method := p.method, url := u, header := p.header, body := p.body }
    else .error (.goError (chars ("net/http: invalid method")))

/-- The JSON document produced by `Parsed.MarshalJSON`, field by field:
`body` carries the `omitempty` tag, so it is absent exactly when empty. -/
structure MarshalOut where
  url : Str
  method : Str
  header : Header
  body : Option Str
deriving DecidableEq

/-- `Parsed.MarshalJSON`: the struct literal evaluates `p.URL.String()`
first, so a model with an absent URL dereferences a nil pointer — a
runtime panic, not an error return. -/
def marshalJSON (p : Parsed) : Res MarshalOut :=
  match p.url with
  | none => .error (.goPanic (chars ("invalid memory address or nil pointer dereference")))
  | some u =>
    .ok { url := u, method := p.method, header := p.header,
          body := if p.body = [] then none else some p.body }

/-- Modelled from the spec: the standard UTF-8 validity rule (§4.4's
"standard text-encoding validity rule", Go's `utf8.Valid`) on a byte
sequence — the accepted ranges exclude overlong forms, surrogates and
code points above U+10FFFF. -/
def utf8Valid : List Nat → Bool
  | [] => true
  | b :: rest =>
    if b < 128 then utf8Valid rest
    else if 194 ≤ b ∧ b ≤ 223 then
      match rest with
      | b2 :: rest2 => (128 ≤ b2 && b2 ≤ 191) && utf8Valid rest2
      | [] => false
    else if 224 ≤ b ∧ b ≤ 239 then
      match rest with
      | b2 :: b3 :: rest2 =>
        (if b = 224 then 160 ≤ b2 && b2 ≤ 191
         else if b = 237 then 128 ≤ b2 && b2 ≤ 159
         else 128 ≤ b2 && b2 ≤ 191) && (128 ≤ b3 && b3 ≤ 191) && utf8Valid rest2
      | _ => false
    else if 240 ≤ b ∧ b ≤ 244 then
      match rest with
      | b2 :: b3 :: b4 :: rest2 =>
        (if b = 240 then 144 ≤ b2 && b2 ≤ 191
         else if b = 244 then 128 ≤ b2 && b2 ≤ 143
         else 128 ≤ b2 && b2 ≤ 191) && (128 ≤ b3 && b3 ≤ 191) && (128 ≤ b4 && b4 ≤ 191)
          && utf8Valid rest2
      | _ => false
    else false

/-- Modelled from the spec: the v0.4.0 request model after the `Body`
field moved from string to byte slice (changelog, not present under the
source snapshot). -/
structure ParsedB where
  url : Option Str
  method : Str
  header : Header
  body : List Nat
deriving DecidableEq

/-- The serialized JSON document of §4.4, field by field: `bodyField`
holds the byte content of the JSON `body` string (for a plain body the
text's bytes are the body bytes themselves; for a base64 body the ASCII
codes of the base64 text), and `bodyEncoding` the discriminator. -/
structure SerializedModel where
  url : Str
  method : Str
  header : Header
  bodyField : Option (List Nat)
  bodyEncoding : Option Str
deriving DecidableEq

/-- Modelled from the spec: `serialize` of §4.4, the v0.4.0 `MarshalJSON`
(changelog; not present under the source snapshot, whose serializer still
emits a plain string body).  An empty body omits both fields; a valid-text
body is emitted literally with encoding `plain`; any other body is emitted
base64-encoded with encoding `base64`.  Like the snapshot's serializer it
begins with `p.URL.String()`, so an absent URL is a nil dereference. -/
def serialize (m : ParsedB) : Res SerializedModel :=
  match m.url with
  | none => .error (.goPanic (chars ("invalid memory address or nil pointer dereference")))
  | some u =>
    .ok { url := u, method := m.method, header := m.header,
          bodyField :=
            if m.body = [] then none
            else if utf8Valid m.body then some m.body
            else some (b64encode m.body),
          bodyEncoding :=
            if m.body = [] then none
            else if utf8Valid m.body then some (chars ("plain"))
            else some (chars ("base64")) }

/-- Decoding of a serialized body according to its discriminator: the
bytes of a `plain` body are the body itself, a `base64` body is decoded. -/
def decodeSerialized (enc : Str) (bf : List Nat) : List Nat :=
  if enc = chars ("base64") then b64decode bf else bf

/-- Modelled from the spec: the form/query percent-encoding of §4.2 (Go's
`url.QueryEscape`) on one byte: alphanumerics and `-._~` stand for
themselves, a space becomes `+`, everything else becomes `%` and two
uppercase hex digits. -/
def escByte (b : Nat) : List Nat :=
  if (48 ≤ b ∧ b ≤ 57) ∨ (65 ≤ b ∧ b ≤ 90) ∨ (97 ≤ b ∧ b ≤ 122)
     ∨ b = 45 ∨ b = 46 ∨ b = 95 ∨ b = 126 then [b]
  else if b = 32 then [43]
  else [37, if b / 16 < 10 then 48 + b / 16 else 55 + b / 16,
            if b % 16 < 10 then 48 + b % 16 else 55 + b % 16]

/-- Modelled from the spec: percent/form-encoding of a string — encode
each of its UTF-8 bytes. -/
def queryEscape (s : Str) : Str :=
  (concatMap escByte (strBytes s)).map Char.ofNat

/-- Split a `--data-urlencode` value at the first `=` or `@`, whichever
comes first, yielding the prefix, the separator and the remainder. -/
def dueSplit : Str → Option (Str × Char × Str)
  | [] => none
  | c :: rest =>
    if c = '=' ∨ c = '@' then some ([], c, rest)
    else match dueSplit rest with
      | some (p, s, t) => some (c :: p, s, t)
      | none => none

/-- Modelled from the spec: the URL-encode rule of §4.2 for one
`--data-urlencode` value (pr 18 of the changelog; not present under the
source snapshot).  The shapes of the spec's table: `content` is encoded
whole; `name=content` (with an empty name for a leading `=`) keeps
`name=` literal and encodes only the content; `name@path` keeps `name=`
literal, reads the file and encodes its contents; a bare `@path` encodes
the file contents with no name prefix; a missing file is fatal. -/
def dataUrlencodeValue (fs : FS) (v : Str) : Res Str :=
  match dueSplit v with
  | none => .ok (queryEscape v)
  | some (name, sep, rest) =>
    if sep = '=' then .ok (name ++ '=' :: queryEscape rest)
    else match fs rest with
      | none => .error (.goError (chars ("failed to read ") ++ rest))
      | some content =>
        if name = [] then .ok (queryEscape content)
        else .ok (name ++ '=' :: queryEscape content)

/-- Modelled from the spec: recognition of the URL-encode family of §4.2
in its separate (`--data-urlencode value`) and glued
(`--data-urlencode=value`) surface forms, so that the v0.4.0 expander can
leave the state machine a token already holding the final literal
bytes. -/
def parseUrlencodeArg (arg : Str) : Option (Option Str) :=
  if arg = chars ("--data-urlencode") then some none
  else if strStartsWith arg (chars ("--data-urlencode=")) then some (some (arg.drop 17))
  else none

/-- Modelled from the spec: the v0.4.0 data expander itself — the
snapshot's cases extended with the URL-encode family recognised by
`parseUrlencodeArg`. -/
def expandU (fs : FS) : List Str → Res (List Str)
  | [] => .ok []
  | a :: rest =>
    match parseUrlencodeArg a with
    | some none =>
      (match rest with
      | [] => .ok [a]
      | v :: rest2 => do
        let e ← dataUrlencodeValue fs v
        let r ← expandU fs rest2
        .ok (a :: e :: r))
    | some (some v) => do
      let e ← dataUrlencodeValue fs v
      let r ← expandU fs rest
      .ok (chars ("--data-urlencode") :: e :: r)
    | none =>
      match parseCurlDataArg a with
      | none => (expandU fs rest).map (a :: ·)
      | some (opt, value, inline) =>
        if inline then
          match readDataFile fs value with
          | .error e => .error e
          | .ok content =>
            if content = [] then (expandU fs rest).map (a :: ·)
            else (expandU fs rest).map (fun r => opt :: content :: r)
        else
          match rest with
          | [] => .ok [a]
          | b :: rest2 =>
            match readDataFile fs b with
            | .error e => .error e
            | .ok content =>
              if content = [] then (expandU fs rest2).map (fun r => a :: b :: r)
              else (expandU fs rest2).map (fun r => a :: content :: r)

/-- Modelled from the spec: the v0.4.0 token-loop step — `--data-urlencode`
is a data-bearing flag (§4.2, §6) and sets the pending data state (§4.3
"any data-family flag → pending data"); every other token behaves as in
the snapshot's loop. -/
def stepArgU (p : Parsed) (state a : Str) : Res (Parsed × Str) :=
  if a = chars ("--data-urlencode") then .ok (p, chars ("data"))
  else stepArg p state a

/-- The token loop of the spec-modelled v0.4.0 `Parse`. -/
def runLoopU (p : Parsed) (state : Str) : List Str → Res (Parsed × Str)
  | [] => .ok (p, state)
  | a :: rest => do
    let (p2, st2) ← stepArgU p state a
    runLoopU p2 st2 rest

/-- Modelled from the spec: the v0.4.0 `Parse` on a pre-split command —
the snapshot's pipeline with the URL-encode family handled by the
expander and the token loop. -/
def ParseU (fs : FS) (cmd : List Str) : Res Parsed := do
  let args ← cmdToArgs cmd
  let args ← expandU fs args
  let (p, _) ← runLoopU newParsed [] args
  .ok (postLoop p)

/-- The flag tokens recognised by the token loop, in source order. -/
def flagLits : List Str :=
  [chars ("-A"), chars ("--user-agent"), chars ("-H"), chars ("--header"),
   chars ("-d"), chars ("--data"), chars ("--data-ascii"), chars ("--data-raw"),
   chars ("-u"), chars ("--user"), chars ("-I"), chars ("--head"),
   chars ("-X"), chars ("--request"), chars ("-b"), chars ("--cookie"),
   chars ("--compressed")]

/-! ### Helper lemmas -/

theorem isPrefixChars_cons_false {c d : Char} {p s : List Char} (h : ¬ c = d) :
    isPrefixChars (c :: p) (d :: s) = false := by
  simp [isPrefixChars, h]

theorem strStartsWith_cons_false {c d : Char} {t p : Str} (h : ¬ d = c) :
    strStartsWith (c :: t) (d :: p) = false :=
  isPrefixChars_cons_false h

/-- A token with a scheme prefix starts with the letter `h`. -/
theorem isURL_head {u : Str} (h : isURL u = true) : ∃ t, u = 'h' :: t := by
  match u with
  | [] => exact absurd h (by decide)
  | c :: t =>
    refine ⟨t, ?_⟩
    have hs : chars ("https://") = 'h' :: chars ("ttps://") := rfl
    have hp : chars ("http://") = 'h' :: chars ("ttp://") := rfl
    rw [isURL, strStartsWith, strStartsWith, hs, hp] at h
    rcases (Bool.or_eq_true _ _).mp h with h2 | h2 <;>
    · simp only [isPrefixChars, Bool.and_eq_true, beq_iff_eq] at h2
      rw [← h2.1]

/-- A token containing a character that occurs in no recognised flag is
not a flag: the loop hands it to the pending-state switch. -/
theorem stepArg_consume (p : Parsed) (st a : Str) (c : Char) (hc : c ∈ a)
    (hurl : isURL a = false) (hf : ∀ f ∈ flagLits, c ∉ f) :
    stepArg p st a = consumeValue p st a := by
  simp only [stepArg, hurl, Bool.false_eq_true, if_false]
  rw [if_neg (by rintro (rfl | rfl) <;> exact hf _ (by decide) hc),
      if_neg (by rintro (rfl | rfl) <;> exact hf _ (by decide) hc),
      if_neg (by rintro (rfl | rfl | rfl | rfl) <;> exact hf _ (by decide) hc),
      if_neg (by rintro (rfl | rfl) <;> exact hf _ (by decide) hc),
      if_neg (by rintro (rfl | rfl) <;> exact hf _ (by decide) hc),
      if_neg (by rintro (rfl | rfl) <;> exact hf _ (by decide) hc),
      if_neg (by rintro (rfl | rfl) <;> exact hf _ (by decide) hc),
      if_neg (by rintro rfl; exact hf _ (by decide) hc),
      if_pos (List.ne_nil_of_mem hc)]

/-- A token that does not start with a dash is not a data-family token. -/
theorem parseCurlDataArg_not_dash {c : Char} (t : Str) (hc : ¬ c = '-') :
    parseCurlDataArg (c :: t) = none := by
  have hp1 : strStartsWith (c :: t) (chars ("--data-binary=")) = false :=
    strStartsWith_cons_false (fun h => hc h.symm)
  have hp2 : strStartsWith (c :: t) (chars ("--data-ascii=")) = false :=
    strStartsWith_cons_false (fun h => hc h.symm)
  have hp3 : strStartsWith (c :: t) (chars ("--data=")) = false :=
    strStartsWith_cons_false (fun h => hc h.symm)
  have hp4 : strStartsWith (c :: t) (chars ("-d")) = false :=
    strStartsWith_cons_false (fun h => hc h.symm)
  rw [parseCurlDataArg,
      if_neg (by intro h; injection h with h1 _; exact hc h1),
      if_neg (by rw [hp1]; exact Bool.false_ne_true),
      if_neg (by intro h; injection h with h1 _; exact hc h1),
      if_neg (by rw [hp2]; exact Bool.false_ne_true),
      if_neg (by intro h; injection h with h1 _; exact hc h1),
      if_neg (by rw [hp3]; exact Bool.false_ne_true),
      if_neg (by intro h; injection h with h1 _; exact hc h1),
      if_neg (by rw [hp4]; exact Bool.false_ne_true)]

/-- Splitting a value of the shape `name=content` whose name contains no
separator finds the `=`. -/
theorem dueSplit_name_eq (name content : Str) (h1 : '=' ∉ name) (h2 : '@' ∉ name) :
    dueSplit (name ++ '=' :: content) = some (name, '=', content) := by
  induction name with
  | nil => rw [List.nil_append, dueSplit, if_pos (Or.inl rfl)]
  | cons c t ih =>
    rw [List.cons_append, dueSplit,
        if_neg (by rintro (rfl | rfl)
                   exacts [h1 (List.mem_cons_self _ _), h2 (List.mem_cons_self _ _)]),
        ih (fun h => h1 (List.mem_cons_of_mem _ h)) (fun h => h2 (List.mem_cons_of_mem _ h))]

theorem not_true_of_eq_false {b : Bool} (h : b = false) : ¬ b = true := by
  rw [h]; exact Bool.false_ne_true

theorem res_bind_ok {α β : Type} (a : α) (f : α → Res β) : (Except.ok a >>= f) = f a := rfl

theorem rewrite_nil : rewrite [] = [] := rfl

theorem rewrite_cons_no (a : Str) (t : List Str) (h : strStartsWith a (chars ("-X")) = false) :
    rewrite (a :: t) = a :: rewrite t := by
  rw [rewrite, if_neg (not_true_of_eq_false h)]
  rfl

theorem expand_nil (fs : FS) : expandCurlDataFiles fs [] = .ok [] := rfl

/-- The expander passes a scheme-prefixed token through unchanged. -/
theorem expand_cons_h (fs : FS) (t : Str) (rest : List Str) :
    expandCurlDataFiles fs (('h' :: t) :: rest)
      = (expandCurlDataFiles fs rest).map (('h' :: t) :: ·) := rfl

theorem runLoop_cons (p : Parsed) (st a : Str) (rest : List Str) :
    runLoop p st (a :: rest) = (stepArg p st a) >>= fun x => runLoop x.1 x.2 rest := rfl

theorem runLoop_nil (p : Parsed) (st : Str) : runLoop p st [] = .ok (p, st) := rfl

theorem runLoopU_cons (p : Parsed) (st a : Str) (rest : List Str) :
    runLoopU p st (a :: rest) = (stepArgU p st a) >>= fun x => runLoopU x.1 x.2 rest := rfl

theorem runLoopU_nil (p : Parsed) (st : Str) : runLoopU p st [] = .ok (p, st) := rfl

/-- The post-loop rule fires exactly when the body is non-empty and a
`Content-Type` value is present. -/
theorem postLoop_add (p : Parsed) (hb : p.body ≠ [])
    (hg : headerGet p.header (chars ("Content-Type")) ≠ []) :
    postLoop p = { p with header := headerAdd p.header (chars ("Content-Type"))
                            (chars ("application/x-www-form-urlencoded")) } := by
  rw [postLoop, if_pos (And.intro hb hg)]

/-- A valid URL token overwrites the url field whatever the current model
and pending state. -/
theorem stepArg_url (p : Parsed) (st u : Str) (h1 : isURL u = true) (h2 : urlParse u = some u) :
    stepArg p st u = .ok ({ p with url := some u }, st) := by
  simp only [stepArg, h1, if_true, h2]

theorem b64_alphabet_inv : ∀ x < 64, b64dec (b64chr x) = x := by decide

theorem b64chr_ne_pad : ∀ x < 64, b64chr x ≠ 61 := by decide

/-- Standard base64 decoding inverts encoding on byte sequences. -/
theorem b64_roundtrip : ∀ l : List Nat, (∀ b ∈ l, b < 256) → b64decode (b64encode l) = l
  | [], _ => rfl
  | [b1], h => by
    have hb1 : b1 < 256 := h b1 (by simp)
    rw [b64encode, b64decode, if_pos rfl,
        b64_alphabet_inv _ (by omega), b64_alphabet_inv _ (by omega)]
    have : b1 / 4 * 4 + b1 % 4 * 16 / 16 = b1 := by omega
    rw [this]
  | [b1, b2], h => by
    have hb1 : b1 < 256 := h b1 (by simp)
    have hb2 : b2 < 256 := h b2 (by simp)
    rw [b64encode, b64decode, if_neg (b64chr_ne_pad _ (by omega)), if_pos rfl,
        b64_alphabet_inv _ (by omega), b64_alphabet_inv _ (by omega),
        b64_alphabet_inv _ (by omega)]
    have e1 : b1 / 4 * 4 + (b1 % 4 * 16 + b2 / 16) / 16 = b1 := by omega
    have e2 : (b1 % 4 * 16 + b2 / 16) % 16 * 16 + b2 % 16 * 4 / 4 = b2 := by omega
    rw [e1, e2]
  | b1 :: b2 :: b3 :: rest, h => by
    have hb1 : b1 < 256 := h b1 (by simp)
    have hb2 : b2 < 256 := h b2 (by simp)
    have hb3 : b3 < 256 := h b3 (by simp)
    have ih := b64_roundtrip rest (fun b hb => h b (by simp [hb]))
    rw [b64encode, b64decode, if_neg (b64chr_ne_pad _ (by omega)),
        if_neg (b64chr_ne_pad _ (by omega)),
        b64_alphabet_inv _ (by omega), b64_alphabet_inv _ (by omega),
        b64_alphabet_inv _ (by omega), b64_alphabet_inv _ (by omega), ih]
    have e1 : b1 / 4 * 4 + (b1 % 4 * 16 + b2 / 16) / 16 = b1 := by omega
    have e2 : (b1 % 4 * 16 + b2 / 16) % 16 * 16 + (b2 % 16 * 4 + b3 / 64) / 4 = b2 := by omega
    have e3 : (b2 % 16 * 4 + b3 / 64) % 4 * 64 + b3 % 64 = b3 := by omega
    rw [e1, e2, e3]


theorem dataUrlencodeValue_name_eq (fs : FS) (name content : Str)
    (h1 : '=' ∉ name) (h2 : '@' ∉ name) :
    dataUrlencodeValue fs (name ++ '=' :: content)
      = .ok (name ++ '=' :: queryEscape content) := by
  rw [dataUrlencodeValue, dueSplit_name_eq name content h1 h2]
  rfl

theorem expandU_nil (fs : FS) : expandU fs [] = .ok [] := rfl

theorem expandU_sep (fs : FS) (v : Str) (rest2 : List Str) :
    expandU fs (chars ("--data-urlencode") :: v :: rest2)
      = (dataUrlencodeValue fs v) >>= fun e => (expandU fs rest2) >>= fun r =>
          .ok (chars ("--data-urlencode") :: e :: r) := rfl

theorem expandU_h (fs : FS) (t : Str) (rest : List Str) :
    expandU fs (('h' :: t) :: rest) = (expandU fs rest).map (('h' :: t) :: ·) := rfl

theorem stepArgU_flag (p : Parsed) (st : Str) :
    stepArgU p st (chars ("--data-urlencode")) = .ok (p, chars ("data")) := rfl

theorem stepArgU_h (p : Parsed) (st t : Str) :
    stepArgU p st ('h' :: t) = stepArg p st ('h' :: t) := rfl

/-- The data-state consumption step, for any token that is neither a URL
nor a recognised flag. -/
theorem stepArg_data (p : Parsed) (a : Str) (c : Char) (hc : c ∈ a)
    (hurl : isURL a = false) (hf : ∀ f ∈ flagLits, c ∉ f) :
    stepArg p (chars ("data")) a =
      .ok ({ p with
             method := if p.method = chars ("GET") ∨ p.method = chars ("HEAD")
                       then chars ("POST") else p.method,
             body := if p.body = [] then a else p.body ++ chars ("&") ++ a }, []) := by
  rw [stepArg_consume p _ a c hc hurl hf, consumeValue,
      if_neg (by decide), if_neg (by decide), if_pos rfl]

theorem postLoop_nil_header (p : Parsed) (h : p.header = []) : postLoop p = p := by
  rw [postLoop, h]
  exact if_neg (fun hc => hc.2 rfl)

/-- A separate-form `--data-urlencode` with a `name=content` value and a
trailing URL: the spec-modelled pipeline encodes the content, keeps the
`name=` prefix literal, and produces a POST with the encoded body. -/
theorem ParseU_urlencode_sep (fs : FS) (name content u : Str)
    (h1 : '=' ∉ name) (h2 : '@' ∉ name)
    (hu : isURL u = true) (hup : urlParse u = some u)
    (hT : isURL (name ++ '=' :: queryEscape content) = false)
    (hX : strStartsWith (name ++ '=' :: content) (chars ("-X")) = false) :
    ParseU fs [chars ("curl"), chars ("--data-urlencode"), name ++ '=' :: content, u]
      = .ok { url := some u, method := chars ("POST"), header := [],
              body := name ++ '=' :: queryEscape content } := by
  obtain ⟨t, rfl⟩ := isURL_head hu
  have hmem : ('=' : Char) ∈ name ++ '=' :: queryEscape content :=
    List.mem_append_right _ (List.mem_cons_self _ _)
  have hTne : ¬ (name ++ '=' :: queryEscape content) = chars ("--data-urlencode") :=
    fun hq => (by decide : ('=' : Char) ∉ chars ("--data-urlencode")) (hq ▸ hmem)
  have hc : cmdToArgs [chars ("curl"), chars ("--data-urlencode"),
      name ++ '=' :: content, ('h' : Char) :: t]
      = .ok [chars ("--data-urlencode"), name ++ '=' :: content, ('h' : Char) :: t] := by
    show Except.ok (rewrite [chars ("--data-urlencode"), name ++ '=' :: content,
        ('h' : Char) :: t]) = _
    rw [rewrite_cons_no _ _ (by decide), rewrite_cons_no _ _ hX,
        rewrite_cons_no _ _ (strStartsWith_cons_false (by decide)), rewrite_nil]
  have he : expandU fs [chars ("--data-urlencode"), name ++ '=' :: content,
      ('h' : Char) :: t]
      = .ok [chars ("--data-urlencode"), name ++ '=' :: queryEscape content,
             ('h' : Char) :: t] := by
    rw [expandU_sep, dataUrlencodeValue_name_eq fs name content h1 h2, res_bind_ok,
        expandU_h, expandU_nil]
    rfl
  have hm : runLoopU newParsed [] [chars ("--data-urlencode"),
      name ++ '=' :: queryEscape content, ('h' : Char) :: t]
      = .ok ({ url := some (('h' : Char) :: t), method := chars ("POST"), header := [],
               body := name ++ '=' :: queryEscape content }, []) := by
    rw [runLoopU_cons, stepArgU_flag, res_bind_ok, runLoopU_cons, stepArgU,
        if_neg hTne, stepArg_data _ _ '=' hmem hT (by decide), res_bind_ok,
        runLoopU_cons, stepArgU_h, stepArg_url _ _ _ hu hup, res_bind_ok, runLoopU_nil]
    rfl
  rw [ParseU, hc, res_bind_ok, he, res_bind_ok, hm, res_bind_ok]
  exact congrArg Except.ok (postLoop_nil_header _ rfl)

/-! ### Claim theorems -/

/-- C3: the claim states that `--data-binary` behaves like every other
data-family flag, setting the pending data state so that its value becomes
the body and the method is upgraded to `POST`.  Evaluating the engine at
the claim's own command refutes this reading of the code: the expander
recognises `--data-binary` but the token loop does not, so the flag and
its value are silently ignored and the model keeps method `GET` and an
empty body. -/
theorem c3_data_binary_ignored :
    Parse emptyFs [chars ("curl"), chars ("--data-binary"), chars ("foo=bar"),
                   chars ("https://a.example")] =
      .ok { url := some (chars ("https://a.example")), method := chars ("GET"),
            header := [], body := [] } := by
  decide

/-- C6: the claim states that once tokenization and expansion succeed and
every scheme-prefixed token is a valid URL, the token loop always runs to
completion, a header-flag value token being processed successfully
whatever its contents.  Evaluating the engine on a header value with no
colon refutes this: `parseField` slices `a[0:-1]`, a runtime bounds panic
that aborts `Parse` abnormally. -/
theorem c6_header_no_colon_panics :
    Parse emptyFs [chars ("curl"), chars ("-H"), chars ("nocolon"),
                   chars ("https://a.example")] =
      .error (.goPanic (chars ("slice bounds out of range [:-1]"))) := by
  decide

/-- C9: the claim states that every input missing the `curl` prefix or
having fewer than two tokens — including the empty string and the empty
argument list — makes `Parse` return an error.  Evaluating the engine
shows the two empty inputs instead hit `cmd[0]` on an empty slice, an
index-out-of-range panic rather than a returned error, while the other
malformed inputs do return the documented error. -/
theorem c9_empty_input_panics :
    ParseStr emptyFs (chars ("")) =
        .error (.goPanic (chars ("index out of range [0] with length 0")))
    ∧ Parse emptyFs [] =
        .error (.goPanic (chars ("index out of range [0] with length 0")))
    ∧ Parse emptyFs [chars ("curl")] =
        .error (.goError (chars ("invalid curl command")))
    ∧ Parse emptyFs [chars ("foo"), chars ("bar")] =
        .error (.goError (chars ("invalid curl command")))
    ∧ ParseStr emptyFs (chars ("wget https://a.example")) =
        .error (.goError (chars ("invalid curl command"))) := by
  decide

/-- C4 counterexample: with the two scheme-prefixed tokens
`http://a.example` and `http://b.example`, both valid URLs, the model's
url is the second token, not the first as the claim states: every URL
token overwrites the field. -/
theorem c4_url_counterexample :
    (Parse emptyFs [chars ("curl"), chars ("http://a.example"), chars ("http://b.example")]
      = .ok { url := some (chars ("http://b.example")), method := chars ("GET"),
              header := [], body := [] })
    ∧ Parse emptyFs [chars ("curl"), chars ("http://a.example"), chars ("http://b.example")]
      ≠ .ok { url := some (chars ("http://a.example")), method := chars ("GET"),
              header := [], body := [] } := by
  decide

/-- C5 counterexample: with a non-empty body and an explicit
`Content-Type` header, the engine appends a second, synthesized
`Content-Type: application/x-www-form-urlencoded` value after the token
loop, refuting the claim that no `Content-Type` is ever synthesized. -/
theorem c5_content_type_counterexample :
    Parse emptyFs [chars ("curl"), chars ("-H"), chars ("Content-Type: application/json"),
                   chars ("-d"), chars ("foo=bar"), chars ("https://a.example")] =
      .ok { url := some (chars ("https://a.example")), method := chars ("POST"),
            header := [(chars ("Content-Type"),
                        [chars ("application/json"),
                         chars ("application/x-www-form-urlencoded")])],
            body := chars ("foo=bar") } := by
  decide

/-- C7 counterexample: for the short flag `-d` with value `a`, the glued
token `-da` does not produce the model of the separate tokens `-d` `a`:
only `-X` is glued-rewritten, so `-da` is left whole and ignored by the
token loop, leaving method `GET` and an empty body where the separate form
yields `POST` with body `a`. -/
theorem c7_glued_counterexample :
    Parse emptyFs [chars ("curl"), chars ("-da"), chars ("http://a.example")]
      ≠ Parse emptyFs [chars ("curl"), chars ("-d"), chars ("a"), chars ("http://a.example")]
    ∧ Parse emptyFs [chars ("curl"), chars ("-da"), chars ("http://a.example")]
      = .ok { url := some (chars ("http://a.example")), method := chars ("GET"),
              header := [], body := [] }
    ∧ Parse emptyFs [chars ("curl"), chars ("-d"), chars ("a"), chars ("http://a.example")]
      = .ok { url := some (chars ("http://a.example")), method := chars ("POST"),
              header := [], body := chars ("a") } := by
  decide

/-- C10: serializing a model whose URL is absent does not produce a JSON
document or an error value — the struct literal dereferences the absent
URL and aborts abnormally — although URL absence is a representable state
that `Request` handles by returning an error. -/
theorem c10_marshal_nil_url (p : Parsed) (h : p.url = none) :
    marshalJSON p =
        .error (.goPanic (chars ("invalid memory address or nil pointer dereference")))
    ∧ request p = .error (.goError (chars ("curlreq: invalid URL: <nil>"))) := by
  obtain ⟨ou, m, hd, b⟩ := p
  cases h
  exact ⟨rfl, rfl⟩

/-- C10 witness: the nil-URL model obtained by parsing a command with no
URL token indeed panics under serialization and errors under `Request`. -/
theorem c10_marshal_nil_url_witness :
    marshalJSON { url := none, method := chars ("GET"), header := [], body := [] } =
        .error (.goPanic (chars ("invalid memory address or nil pointer dereference")))
    ∧ request { url := none, method := chars ("GET"), header := [], body := [] } =
        .error (.goError (chars ("curlreq: invalid URL: <nil>"))) :=
  c10_marshal_nil_url { url := none, method := chars ("GET"), header := [], body := [] } rfl

/-- C8: whenever the token loop consumes a value token in the pending
data state — a non-empty token that is neither a URL nor a recognised
flag — the method is upgraded to `POST` exactly when it is still `GET` or
`HEAD`, and the token becomes the whole body when the body was empty and
is otherwise appended after a literal `&`; in particular
`curl -d "foo=bar" -d bar=baz https://a.example` yields method `POST` and
body `foo=bar&bar=baz`. -/
theorem c8_data_append :
    (∀ (p : Parsed) (a : Str) (c : Char), c ∈ a → isURL a = false →
      (∀ f ∈ flagLits, c ∉ f) →
      stepArg p (chars ("data")) a =
        .ok ({ p with
               method := if p.method = chars ("GET") ∨ p.method = chars ("HEAD")
                         then chars ("POST") else p.method,
               body := if p.body = [] then a else p.body ++ chars ("&") ++ a }, []))
    ∧ Parse emptyFs [chars ("curl"), chars ("-d"), chars ("foo=bar"), chars ("-d"),
                     chars ("bar=baz"), chars ("https://a.example")] =
        .ok { url := some (chars ("https://a.example")), method := chars ("POST"),
              header := [], body := chars ("foo=bar&bar=baz") } := by
  exact ⟨fun p a c hc hurl hf => stepArg_data p a c hc hurl hf, by decide⟩

/-- C8 witness: the data-consumption step at a concrete model and token. -/
theorem c8_data_append_witness :
    stepArg { url := none, method := chars ("GET"), header := [], body := chars ("a=b") }
        (chars ("data")) (chars ("x=1")) =
      .ok ({ url := none, method := chars ("POST"), header := [],
             body := chars ("a=b&x=1") }, []) := by
  have h := c8_data_append.1
    { url := none, method := chars ("GET"), header := [], body := chars ("a=b") }
    (chars ("x=1")) '=' (by decide) (by decide) (by decide)
  rw [h]; decide

/-- C2: the spec-modelled v0.4.0 serializer omits `body` and
`body_encoding` exactly when the body is empty, otherwise emits the
literal text with encoding `plain` when the bytes are valid text and a
base64 string with encoding `base64` otherwise, and in every case
decoding the emitted body field according to its encoding recovers
exactly the model's body bytes. -/
theorem c2_serialize_roundtrip (m : ParsedB) (u : Str) (hu : m.url = some u)
    (hb : ∀ b ∈ m.body, b < 256) :
    ∃ s, serialize m = .ok s
      ∧ (m.body = [] → s.bodyField = none ∧ s.bodyEncoding = none)
      ∧ (m.body ≠ [] → utf8Valid m.body = true →
          s.bodyField = some m.body ∧ s.bodyEncoding = some (chars ("plain")))
      ∧ (m.body ≠ [] → utf8Valid m.body = false →
          s.bodyField = some (b64encode m.body) ∧ s.bodyEncoding = some (chars ("base64")))
      ∧ (∀ bf e, s.bodyField = some bf → s.bodyEncoding = some e →
          decodeSerialized e bf = m.body) := by
  obtain ⟨ou, mm, hh, bb⟩ := m
  cases hu
  refine ⟨{ url := u, method := mm, header := hh,
            bodyField := if bb = [] then none
              else if utf8Valid bb = true then some bb else some (b64encode bb),
            bodyEncoding := if bb = [] then none
              else if utf8Valid bb = true then some (chars ("plain"))
              else some (chars ("base64")) },
          rfl, fun h => ?_, fun h hv => ?_, fun h hv => ?_, fun bf e hbf he => ?_⟩
  · replace h : bb = [] := h
    subst h
    exact ⟨rfl, rfl⟩
  · replace h : bb ≠ [] := h
    replace hv : utf8Valid bb = true := hv
    constructor
    · show (if bb = [] then none
        else if utf8Valid bb = true then some bb else some (b64encode bb)) = some bb
      rw [if_neg h, if_pos hv]
    · show (if bb = [] then none
        else if utf8Valid bb = true then some (chars ("plain"))
        else some (chars ("base64"))) = some (chars ("plain"))
      rw [if_neg h, if_pos hv]
  · replace h : bb ≠ [] := h
    replace hv : utf8Valid bb = false := hv
    have hv2 : ¬ utf8Valid bb = true := by rw [hv]; exact Bool.false_ne_true
    constructor
    · show (if bb = [] then none
        else if utf8Valid bb = true then some bb else some (b64encode bb))
          = some (b64encode bb)
      rw [if_neg h, if_neg hv2]
    · show (if bb = [] then none
        else if utf8Valid bb = true then some (chars ("plain"))
        else some (chars ("base64"))) = some (chars ("base64"))
      rw [if_neg h, if_neg hv2]
  · replace hbf : (if bb = [] then none
        else if utf8Valid bb = true then some bb else some (b64encode bb)) = some bf := hbf
    replace he : (if bb = [] then none
        else if utf8Valid bb = true then some (chars ("plain"))
        else some (chars ("base64"))) = some e := he
    by_cases hbb : bb = []
    · rw [if_pos hbb] at hbf
      exact Option.noConfusion hbf
    · rw [if_neg hbb] at hbf he
      by_cases hv : utf8Valid bb = true
      · rw [if_pos hv] at hbf he
        obtain rfl : bb = bf := Option.some.inj hbf
        obtain rfl : chars ("plain") = e := Option.some.inj he
        rw [decodeSerialized, if_neg (by decide)]
      · rw [if_neg hv] at hbf he
        obtain rfl : b64encode bb = bf := Option.some.inj hbf
        obtain rfl : chars ("base64") = e := Option.some.inj he
        rw [decodeSerialized, if_pos rfl]
        exact b64_roundtrip bb hb

/-- C2 witness: a concrete model with a non-text body, serialized and
decoded back. -/
theorem c2_serialize_roundtrip_witness :
    ∃ s, serialize { url := some (chars ("http://a.example")), method := chars ("GET"),
                     header := [], body := [255, 104, 105] } = .ok s
      ∧ (([255, 104, 105] : List Nat) = [] → s.bodyField = none ∧ s.bodyEncoding = none)
      ∧ (([255, 104, 105] : List Nat) ≠ [] → utf8Valid [255, 104, 105] = true →
          s.bodyField = some [255, 104, 105] ∧ s.bodyEncoding = some (chars ("plain")))
      ∧ (([255, 104, 105] : List Nat) ≠ [] → utf8Valid [255, 104, 105] = false →
          s.bodyField = some (b64encode [255, 104, 105])
            ∧ s.bodyEncoding = some (chars ("base64")))
      ∧ (∀ bf e, s.bodyField = some bf → s.bodyEncoding = some e →
          decodeSerialized e bf = [255, 104, 105]) :=
  c2_serialize_roundtrip
    { url := some (chars ("http://a.example")), method := chars ("GET"),
      header := [], body := [255, 104, 105] }
    (chars ("http://a.example")) rfl (by decide)

/-- C4 amended: every scheme-prefixed token that parses as a valid URL
overwrites the model's url, so with two such tokens the resulting url is
the LAST one; the first token does not survive. -/
theorem c4_last_url_wins (fs : FS) (u1 u2 : Str)
    (h1 : isURL u1 = true) (h2 : isURL u2 = true)
    (hp1 : urlParse u1 = some u1) (hp2 : urlParse u2 = some u2) :
    Parse fs [chars ("curl"), u1, u2] =
      .ok { url := some u2, method := chars ("GET"), header := [], body := [] } := by
  obtain ⟨t1, e1⟩ := isURL_head h1
  obtain ⟨t2, e2⟩ := isURL_head h2
  subst e1; subst e2
  have hx1 : strStartsWith (('h' : Char) :: t1) (chars ("-X")) = false :=
    strStartsWith_cons_false (by decide)
  have hx2 : strStartsWith (('h' : Char) :: t2) (chars ("-X")) = false :=
    strStartsWith_cons_false (by decide)
  have hA : cmdToArgs [chars ("curl"), ('h' : Char) :: t1, ('h' : Char) :: t2]
      = .ok [('h' : Char) :: t1, ('h' : Char) :: t2] := by
    show Except.ok (rewrite [('h' : Char) :: t1, ('h' : Char) :: t2]) = _
    rw [rewrite_cons_no _ _ hx1, rewrite_cons_no _ _ hx2, rewrite_nil]
  have hB : expandCurlDataFiles fs [('h' : Char) :: t1, ('h' : Char) :: t2]
      = .ok [('h' : Char) :: t1, ('h' : Char) :: t2] := by
    rw [expand_cons_h, expand_cons_h, expand_nil]
    rfl
  have hC : runLoop newParsed [] [('h' : Char) :: t1, ('h' : Char) :: t2]
      = .ok ({ newParsed with url := some (('h' : Char) :: t2) }, []) := by
    rw [runLoop_cons, stepArg_url _ _ _ h1 hp1, res_bind_ok,
        runLoop_cons, stepArg_url _ _ _ h2 hp2, res_bind_ok, runLoop_nil]
  rw [Parse, hA, res_bind_ok, hB, res_bind_ok, hC, res_bind_ok]
  rfl

/-- C4 witness: the amended rule at the two concrete URLs of the
counterexample. -/
theorem c4_last_url_wins_witness :
    Parse emptyFs [chars ("curl"), chars ("http://a.example"), chars ("http://b.example")] =
      .ok { url := some (chars ("http://b.example")), method := chars ("GET"),
            header := [], body := [] } :=
  c4_last_url_wins emptyFs (chars ("http://a.example")) (chars ("http://b.example"))
    (by decide) (by decide) (by decide) (by decide)

/-- C5 amended: when the body is non-empty and a `Content-Type` header
with a non-empty value is already present, the engine appends an
additional `Content-Type: application/x-www-form-urlencoded` value after
the token loop — proved for every explicit Content-Type value. -/
theorem c5_content_type_synthesis (fs : FS) (v : Str) (hv : strTrim v ≠ []) :
    Parse fs [chars ("curl"), chars ("-H"), chars ("Content-Type: ") ++ v,
              chars ("-d"), chars ("foo=bar"), chars ("https://a.example")] =
      .ok { url := some (chars ("https://a.example")), method := chars ("POST"),
            header := [(chars ("Content-Type"),
                        [strTrim v, chars ("application/x-www-form-urlencoded")])],
            body := chars ("foo=bar") } := by
  show Except.ok (postLoop
      { url := some (chars ("https://a.example")), method := chars ("POST"),
        header := [(chars ("Content-Type"), [strTrim v])],
        body := chars ("foo=bar") }) = _
  rw [postLoop_add
        { url := some (chars ("https://a.example")), method := chars ("POST"),
          header := [(chars ("Content-Type"), [strTrim v])], body := chars ("foo=bar") }
        (fun h => List.noConfusion h) hv]
  rfl

/-- C5 witness: the amended rule at the counterexample's concrete header
value. -/
theorem c5_content_type_synthesis_witness :
    Parse emptyFs [chars ("curl"), chars ("-H"),
                   chars ("Content-Type: ") ++ chars ("application/json"),
                   chars ("-d"), chars ("foo=bar"), chars ("https://a.example")] =
      .ok { url := some (chars ("https://a.example")), method := chars ("POST"),
            header := [(chars ("Content-Type"),
                        [chars ("application/json"),
                         chars ("application/x-www-form-urlencoded")])],
            body := chars ("foo=bar") } := by
  rw [c5_content_type_synthesis emptyFs (chars ("application/json")) (by decide)]
  decide

/-- C7 amended: only the `-X` short flag is glued-rewritten — for every
non-empty value not itself beginning with `-X`, parsing with the glued
token `-Xv` produces the same model as parsing with the separate tokens
`-X` and `v`, whatever tokens follow; the other short flags' glued forms
are left whole (see the counterexample). -/
theorem c7_dashX_glued_eq (fs : FS) (v : Str) (rest : List Str)
    (hv : v ≠ []) (hx : strStartsWith v (chars ("-X")) = false) :
    Parse fs (chars ("curl") :: (chars ("-X") ++ v) :: rest) =
      Parse fs (chars ("curl") :: chars ("-X") :: v :: rest) := by
  have hc1 : cmdToArgs (chars ("curl") :: (chars ("-X") ++ v) :: rest)
      = .ok (chars ("-X") :: v :: rewrite rest) := rfl
  have hc2 : cmdToArgs (chars ("curl") :: chars ("-X") :: v :: rest)
      = .ok (chars ("-X") :: [] :: rewrite (v :: rest)) := rfl
  rw [rewrite_cons_no v rest hx] at hc2
  have He1 : expandCurlDataFiles fs (chars ("-X") :: v :: rewrite rest)
      = (expandCurlDataFiles fs (v :: rewrite rest)).map (chars ("-X") :: ·) := rfl
  have He2 : expandCurlDataFiles fs (chars ("-X") :: [] :: v :: rewrite rest)
      = ((expandCurlDataFiles fs (v :: rewrite rest)).map ([] :: ·)).map
          (chars ("-X") :: ·) := rfl
  simp only [Parse]
  rw [hc1, res_bind_ok, hc2, res_bind_ok, He1, He2]
  cases hE : expandCurlDataFiles fs (v :: rewrite rest) with
  | error e => rfl
  | ok T => rfl

/-- C7 witness: glued `-XPUT` and separate `-X PUT` agree on a concrete
command. -/
theorem c7_dashX_glued_eq_witness :
    Parse emptyFs (chars ("curl") :: (chars ("-X") ++ chars ("PUT"))
        :: [chars ("http://a.example")]) =
      Parse emptyFs (chars ("curl") :: chars ("-X") :: chars ("PUT")
        :: [chars ("http://a.example")]) :=
  c7_dashX_glued_eq emptyFs (chars ("PUT")) [chars ("http://a.example")]
    (by decide) (by decide)


/-- C1: for a `--data-urlencode` value of the shape `name=content`, the
spec-modelled engine keeps the `name=` prefix literal, form/percent-encodes
the content and contributes the result to the body of a POST — proved for
every name, content and URL, for the separate and (on the claim's example)
glued surface forms; the encoding sends a space to `+` and percent-escapes
`&` and `=`, so `curl --data-urlencode "key=value&other=data"
https://a.example` yields method `POST` and body
`key=value%26other%3Ddata`. -/
theorem c1_data_urlencode :
    (∀ (fs : FS) (name content u : Str),
      '=' ∉ name → '@' ∉ name →
      isURL u = true → urlParse u = some u →
      isURL (name ++ '=' :: queryEscape content) = false →
      strStartsWith (name ++ '=' :: content) (chars ("-X")) = false →
      ParseU fs [chars ("curl"), chars ("--data-urlencode"), name ++ '=' :: content, u]
        = .ok { url := some u, method := chars ("POST"), header := [],
                body := name ++ '=' :: queryEscape content })
    ∧ ParseU emptyFs [chars ("curl"), chars ("--data-urlencode"),
        chars ("key=value&other=data"), chars ("https://a.example")]
        = .ok { url := some (chars ("https://a.example")), method := chars ("POST"),
                header := [], body := chars ("key=value%26other%3Ddata") }
    ∧ ParseU emptyFs [chars ("curl"), chars ("--data-urlencode=key=value&other=data"),
        chars ("https://a.example")]
        = .ok { url := some (chars ("https://a.example")), method := chars ("POST"),
                header := [], body := chars ("key=value%26other%3Ddata") }
    ∧ queryEscape (chars (" ")) = chars ("+")
    ∧ queryEscape (chars ("&=")) = chars ("%26%3D") := by
  refine ⟨fun fs name content u h1 h2 hu hup hT hX =>
    ParseU_urlencode_sep fs name content u h1 h2 hu hup hT hX, ?_, ?_, ?_, ?_⟩
  · decide
  · decide
  · decide
  · decide

/-- C1 witness: the general shape theorem applied at the claim's concrete
example. -/
theorem c1_data_urlencode_witness :
    ParseU emptyFs [chars ("curl"), chars ("--data-urlencode"),
        chars ("key") ++ '=' :: chars ("value&other=data"), chars ("https://a.example")]
      = .ok { url := some (chars ("https://a.example")), method := chars ("POST"),
              header := [], body := chars ("key=value%26other%3Ddata") } := by
  have h := c1_data_urlencode.1 emptyFs (chars ("key")) (chars ("value&other=data"))
    (chars ("https://a.example")) (by decide) (by decide) (by decide) (by decide)
    (by decide) (by decide)
  rw [h]
  decide

end Curlreq
